import Mathlib

/-!
Verification development for the sandy-ddd schema-migration engine.

The JavaScript sources under `lib/migrations/` are shallowly embedded:

* `operation.js`        → the `Operation` fluent builder (pure data, no I/O);
* `migration.js`        → the `Mig` record (id, description, up/down lists);
* `migrationManager.js` → `MigrationManager` with `migrateUp` / `migrateDown`,
  modelled as explicit state passing over an adapter record: each fallible
  adapter call returns the post-call state together with an optional thrown
  error (mirroring JS exceptions that leave side effects behind);
* `migrationAdapterSQL.js`, `migrationAdapterSQLite.js`,
  `migrationAdapterMySQL.js`, `migrationAdapterMongoDB.js` → in-memory models
  of the backend state (ledger, tables, plus a ghost journal of executed
  backend calls).

JS strings are modelled as Lean `String`; the handful of JS string methods
used by the source (`toUpperCase`, `endsWith`, `slice(0,-5)`, `trim`) are
given explicit character-list definitions so that everything evaluates.
-/

namespace Sandy

/-- A thrown JS error, identified by its message. -/
abbrev Err := String

/-- JS truthiness of an optional boolean field (absent and `false` are falsy). -/
def truthy : Option Bool → Bool
  | some b => b
  | none => false

/-- JS template interpolation of a possibly-`null` value (prints "null"). -/
def jsNull : Option String → String
  | some s => s
  | none => "null"

/-- JS template interpolation of a possibly-`undefined` value (prints "undefined"),
used for a property that was never assigned, such as `params.type`. -/
def jsUndef : Option String → String
  | some s => s
  | none => "undefined"

/-- JS `String.prototype.toUpperCase` (ASCII model, character by character). -/
def jsUpper (s : String) : String :=
  String.mk (s.data.map Char.toUpper)

/-- JS `String.prototype.endsWith`. -/
def jsEndsWith (s suffix : String) : Bool :=
  List.isSuffixOf suffix.data s.data

/-- JS `String.prototype.slice(0, -n)`: drop the last `n` characters. -/
def jsDropRight (s : String) (n : Nat) : String :=
  String.mk (s.data.take (s.data.length - n))

/-- JS `String.prototype.trim`: strip leading and trailing whitespace. -/
def jsTrim (s : String) : String :=
  String.mk
    ((((s.data.dropWhile Char.isWhitespace).reverse).dropWhile
      Char.isWhitespace).reverse)

/-! ## Operation descriptors (`operation.js`)

A column object is built by spreading the caller's options object into
`{ name, type, ... }`; absent JS properties are modelled as `none`. -/

/-- Options object accepted by the column-adding builder methods. -/
structure ColOptions where
  length : Option Nat := none
  required : Option Bool := none
  unique : Option Bool := none
  primary : Option Bool := none
  autoIncrement : Option Bool := none
  default : Option String := none
deriving Repr, DecidableEq

/-- A column descriptor as pushed onto `params.columns`. -/
structure Column where
  name : String
  type : String
  length : Option Nat := none
  required : Option Bool := none
  unique : Option Bool := none
  primary : Option Bool := none
  autoIncrement : Option Bool := none
  default : Option String := none
deriving Repr, DecidableEq

/-- The JS spread `{ name, type, ...options }` producing a column object. -/
def mkCol (name ty : String) (o : ColOptions) : Column :=
  { name := name, type := ty, length := o.length, required := o.required,
    unique := o.unique, primary := o.primary, autoIncrement := o.autoIncrement,
    default := o.default }

/-- One normalized index column `{ name, order }` with order "ASC" or "DESC". -/
structure IndexCol where
  name : String
  order : String
deriving Repr, DecidableEq

/-- Options object accepted by `addIndex` (the `where` option of the source is
spelled `whereClause` because `where` is reserved in Lean). -/
structure IndexOptions where
  primary : Option Bool := none
  unique : Option Bool := none
  whereClause : Option String := none
deriving Repr, DecidableEq

/-- An index descriptor as pushed onto `params.indexes`. -/
structure Index where
  name : String
  columns : List IndexCol
  primary : Option Bool := none
  unique : Option Bool := none
  whereClause : Option String := none
deriving Repr, DecidableEq

/-- The `params` object of an `Operation`.  The constructor initializes
`tableName` to `null` and never assigns `type`, so reading `params.type`
yields `undefined` (`none`). -/
structure Params where
  tableName : Option String := none
  columns : List Column := []
  indexes : List Index := []
  type : Option String := none
deriving Repr, DecidableEq

/-- The `Operation` builder object. -/
structure Operation where
  params : Params
deriving Repr, DecidableEq

namespace Operation

/-- `Operation.createTable(name)`: fresh builder with `tableName` set. -/
def createTable (name : String) : Operation :=
  { params := { tableName := some name } }

/-- `addIndex` column-token normalization: a string token whose uppercase form
ends with " DESC" yields order "DESC" with the 5-character suffix sliced off
and the remainder trimmed; any other token yields order "ASC" unchanged.
(The source also passes through non-string tokens; the model covers the
string tokens the engine documents.) -/
def normIndexCol (col : String) : IndexCol :=
  if jsEndsWith (jsUpper col) " DESC" then
    { name := jsTrim (jsDropRight col 5), order := "DESC" }
  else
    { name := col, order := "ASC" }

/-- `addIndex(name, columns, options)`: normalize the column tokens and push
`{ name, columns, ...options }` onto `params.indexes`. -/
def addIndex (op : Operation) (name : String) (columns : List String)
    (opts : IndexOptions) : Operation :=
  let cols := columns.map normIndexCol
  { op with params := { op.params with indexes := op.params.indexes ++
      [{ name := name, columns := cols, primary := opts.primary,
         unique := opts.unique, whereClause := opts.whereClause }] } }

/-- The synthetic primary-index name `` `${tableName}_${name}_pk` ``. -/
def pkIndexName (op : Operation) (name : String) : String :=
  jsNull op.params.tableName ++ "_" ++ name ++ "_pk"

/-- Shared body of the column-adding methods (`addInteger`, `addNumber`,
`addBoolean`, `addDate`, `addTime`, `addTimestamp`, `addVarChar`): build the
column by spreading the options, and when the `primary` option is truthy force
`required = true` and push the synthetic `{table}_{column}_pk` index before
pushing the column. -/
def pushColumn (op : Operation) (name : String) (col : Column)
    (o : ColOptions) : Operation :=
  if truthy o.primary then
    let col := { col with required := some true }
    let op := op.addIndex (op.pkIndexName name) [name]
      { primary := some true, unique := some true }
    { op with params := { op.params with
        columns := op.params.columns ++ [col] } }
  else
    { op with params := { op.params with
        columns := op.params.columns ++ [col] } }

/-- `addInteger(name, options)`. -/
def addInteger (op : Operation) (name : String) (o : ColOptions) : Operation :=
  op.pushColumn name (mkCol name "INTEGER" o) o

/-- `addNumber(name, options)`. -/
def addNumber (op : Operation) (name : String) (o : ColOptions) : Operation :=
  op.pushColumn name (mkCol name "NUMERIC" o) o

/-- `addBoolean(name, options)`. -/
def addBoolean (op : Operation) (name : String) (o : ColOptions) : Operation :=
  op.pushColumn name (mkCol name "BOOLEAN" o) o

/-- `addDate(name, options)`. -/
def addDate (op : Operation) (name : String) (o : ColOptions) : Operation :=
  op.pushColumn name (mkCol name "DATE" o) o

/-- `addTime(name, options)`. -/
def addTime (op : Operation) (name : String) (o : ColOptions) : Operation :=
  op.pushColumn name (mkCol name "TIME" o) o

/-- `addTimestamp(name, options)`. -/
def addTimestamp (op : Operation) (name : String) (o : ColOptions) :
    Operation :=
  op.pushColumn name (mkCol name "TIMESTAMP" o) o

/-- `addVarChar(name, length, options)`: the positional `length` is spread
first, so a `length` key in the options object wins over it. -/
def addVarChar (op : Operation) (name : String) (len : Nat) (o : ColOptions) :
    Operation :=
  let baseLen : Option Nat :=
    match o.length with
    | some v => some v
    | none => some len
  op.pushColumn name { mkCol name "VARCHAR" o with length := baseLen } o

/-- `addString` is an alias for `addVarChar`. -/
def addString (op : Operation) (name : String) (len : Nat) (o : ColOptions) :
    Operation :=
  op.addVarChar name len o

/-- `addPrimary(name)`: push a fully-flagged auto-increment integer column,
then the synthetic primary index. -/
def addPrimary (op : Operation) (name : String) : Operation :=
  let col : Column :=
    { name := name, type := "INTEGER", primary := some true,
      required := some true, unique := some true, autoIncrement := some true }
  let op' := { op with params := { op.params with
      columns := op.params.columns ++ [col] } }
  op'.addIndex (op'.pkIndexName name) [name]
    { primary := some true, unique := some true }

/-- `addTimestamps()`: push `created_at` (required, default "NOW()") then
`updated_at` (not required, default null). -/
def addTimestamps (op : Operation) : Operation :=
  { op with params := { op.params with columns := op.params.columns ++
      [{ name := "created_at", type := "TIMESTAMP", required := some true,
         default := some "NOW()" },
       { name := "updated_at", type := "TIMESTAMP", required := some false,
         default := none }] } }

/-- `finalize()` is `return this`: the result is the very same builder object,
not a copy or frozen snapshot (the repository's own test asserts
`expect(finalized).toBe(op)`). -/
def finalize (op : Operation) : Operation :=
  op

end Operation

/-! ## Migration records (`migration.js`)

A `Migration` is a plain versioned record; `timestampCreated` and `checksum`
carry no algorithmic content and are omitted from the model. -/

/-- The `Migration` record: id, description and the two ordered operation
lists. -/
structure Mig where
  id : String
  description : String := ""
  up : List Operation := []
  down : List Operation := []
deriving Repr, DecidableEq

/-- Lexicographic comparison of two character sequences, used to model
`a.localeCompare(b) <= 0` on migration ids. -/
def charsLe : List Char → List Char → Bool
  | [], _ => true
  | _ :: _, [] => false
  | a :: as, b :: bs => if a = b then charsLe as bs else decide (a < b)

/-- The lexical order on id strings. -/
def strLE (a b : String) : Prop := charsLe a.data b.data = true

instance : DecidableRel strLE := fun a b =>
  instDecidableEqBool (charsLe a.data b.data) true

/-- Apply order: `(a, b) => a.id.localeCompare(b.id)`, modelled as the
lexicographic order on the id strings. -/
def migLE (a b : Mig) : Prop := strLE a.id b.id

instance : DecidableRel migLE := fun a b =>
  instDecidableEqBool (charsLe a.id.data b.id.data) true

theorem charsLe_total : ∀ as bs : List Char,
    charsLe as bs = true ∨ charsLe bs as = true
  | [], _ => Or.inl rfl
  | _ :: _, [] => Or.inr rfl
  | a :: as, b :: bs => by
    by_cases h : a = b
    · subst h
      simpa [charsLe] using charsLe_total as bs
    · rcases lt_or_gt_of_ne h with hlt | hgt
      · left
        simp [charsLe, h, hlt]
      · right
        simp [charsLe, Ne.symm h, hgt]

theorem charsLe_trans : ∀ as bs cs : List Char,
    charsLe as bs = true → charsLe bs cs = true → charsLe as cs = true
  | [], _, _, _, _ => rfl
  | _ :: _, [], _, h1, _ => by simp [charsLe] at h1
  | _ :: _, _ :: _, [], _, h2 => by simp [charsLe] at h2
  | a :: as, b :: bs, c :: cs, h1, h2 => by
    by_cases hab : a = b <;> by_cases hbc : b = c
    · subst hab; subst hbc
      simp only [charsLe, if_pos rfl] at h1 h2 ⊢
      exact charsLe_trans as bs cs h1 h2
    · subst hab
      simp only [charsLe, if_pos rfl, if_neg hbc] at h2 ⊢
      simpa using h2
    · subst hbc
      simp only [charsLe, if_pos rfl, if_neg hab] at h1 ⊢
      simpa using h1
    · simp only [charsLe, if_neg hab, if_neg hbc, decide_eq_true_eq] at h1 h2
      have hac : a < c := lt_trans h1 h2
      simp [charsLe, ne_of_lt hac, hac]

instance : IsTotal Mig migLE := ⟨fun a b => charsLe_total a.id.data b.id.data⟩

instance : IsTrans Mig migLE :=
  ⟨fun a b c h1 h2 => charsLe_trans a.id.data b.id.data c.id.data h1 h2⟩

instance : IsTotal String strLE := ⟨fun a b => charsLe_total a.data b.data⟩

instance : IsTrans String strLE :=
  ⟨fun a b c h1 h2 => charsLe_trans a.data b.data c.data h1 h2⟩

/-! ## The adapter contract and the manager (`migrationManager.js`)

Stateful, fallible adapter calls are modelled by explicit state passing: a
call maps the backend state to the post-call state together with `some e`
when the call threw error `e` (a thrown JS exception still leaves whatever
the call already did in place, which the returned state records). -/

/-- Outcome of a fallible adapter call: post-call state, plus the thrown
error if any. -/
abbrev Outcome (σ : Type) := σ × Option Err

/-- The duck-typed capability set `migrationManager.js` relies on.
`fetchAppliedIds` is a read that the model treats as non-throwing. -/
structure Adapter (σ : Type) where
  ensureMigrationTable : σ → Outcome σ
  fetchAppliedIds : σ → List String
  recordAppliedMigration : String → σ → Outcome σ
  recordRolledBackMigration : String → σ → Outcome σ
  executeOperation : Operation → σ → Outcome σ
  revertOperation : Operation → σ → Outcome σ

/-- The manager object: the adapter plus the id-sorted migration list. -/
structure MigrationManager (σ : Type) where
  adapter : Adapter σ
  migrations : List Mig

/-- The constructor `new MigrationManager(adapter, migrations)`: copy the
list and sort it by id (`localeCompare`, i.e. lexicographic on ids; JS
`Array.prototype.sort` is stable, as is insertion sort). -/
def MigrationManager.make {σ : Type} (adapter : Adapter σ)
    (migrations : List Mig) : MigrationManager σ :=
  { adapter := adapter, migrations := List.insertionSort migLE migrations }

/-- `getAppliedMigrations()`: the applied-id set fetched from the adapter
(the JS `Set` is modelled by list membership). -/
def MigrationManager.getAppliedMigrations {σ : Type}
    (mgr : MigrationManager σ) (s : σ) : List String :=
  mgr.adapter.fetchAppliedIds s

/-- The inner loop of `migrateUp` over one migration's `up` operations:
execute each in list order, aborting with the state at failure when one
throws. -/
def runUpOps {σ : Type} (A : Adapter σ) : List Operation → σ → Outcome σ
  | [], s => (s, none)
  | op :: rest, s =>
    match A.executeOperation op s with
    | (s', none) => runUpOps A rest s'
    | (s', some e) => (s', some e)

/-- The body of the `migrateUp` loop for one pending migration: execute its
up operations in list order, then `recordAppliedMigration(migration.id)`. -/
def applyOne {σ : Type} (A : Adapter σ) (m : Mig) (s : σ) : Outcome σ :=
  match runUpOps A m.up s with
  | (s', some e) => (s', some e)
  | (s', none) => A.recordAppliedMigration m.id s'

/-- The `for (const migration of this.migrations)` loop of `migrateUp`:
skip migrations whose id is in the applied set fetched before the loop;
otherwise run the migration body, propagating the first thrown error (which
aborts the loop). -/
def applyPending {σ : Type} (A : Adapter σ) (applied : List String) :
    List Mig → σ → Outcome σ
  | [], s => (s, none)
  | m :: rest, s =>
    if applied.contains m.id then applyPending A applied rest s
    else
      match applyOne A m s with
      | (s', some e) => (s', some e)
      | (s', none) => applyPending A applied rest s'

/-- `migrateUp()`: `ensureMigrationTable`, fetch the applied ids once, then
apply every pending migration in list order. -/
def MigrationManager.migrateUp {σ : Type} (mgr : MigrationManager σ)
    (s : σ) : Outcome σ :=
  match mgr.adapter.ensureMigrationTable s with
  | (s1, some e) => (s1, some e)
  | (s1, none) =>
    let applied := mgr.adapter.fetchAppliedIds s1
    applyPending mgr.adapter applied mgr.migrations s1

/-- The inner loop of `migrateDown` over one migration's `down` operations. -/
def runDownOps {σ : Type} (A : Adapter σ) : List Operation → σ → Outcome σ
  | [], s => (s, none)
  | op :: rest, s =>
    match A.revertOperation op s with
    | (s', none) => runDownOps A rest s'
    | (s', some e) => (s', some e)

/-- The tail of `migrateDown` once the applied list has been computed:
no-op when it is empty, otherwise run the last migration's down operations
in list order and delete its ledger record. -/
def rollbackLast {σ : Type} (A : Adapter σ) (lastOpt : Option Mig)
    (s1 : σ) : Outcome σ :=
  match lastOpt with
  | none => (s1, none)
  | some last =>
    match runDownOps A last.down s1 with
    | (s', some e) => (s', some e)
    | (s', none) => A.recordRolledBackMigration last.id s'

/-- `migrateDown()`: fetch the applied ids, filter the known (sorted)
migrations down to the applied ones, and roll back the last of that list —
the one with the greatest id; no-op when none is applied. -/
def MigrationManager.migrateDown {σ : Type} (mgr : MigrationManager σ)
    (s : σ) : Outcome σ :=
  match mgr.adapter.ensureMigrationTable s with
  | (s1, some e) => (s1, some e)
  | (s1, none) =>
    let applied := mgr.adapter.fetchAppliedIds s1
    let appliedList := mgr.migrations.filter (fun m => applied.contains m.id)
    rollbackLast mgr.adapter appliedList.getLast? s1

/-- The ids a `migrateUp` run records, in recording order: mirror of
`applyPending` that collects the id of every pending migration whose up
operations and ledger insert all succeed, stopping at the first error. -/
def recordedIds {σ : Type} (A : Adapter σ) (applied : List String) :
    List Mig → σ → List String
  | [], _ => []
  | m :: rest, s =>
    if applied.contains m.id then recordedIds A applied rest s
    else
      match applyOne A m s with
      | (_, some _) => []
      | (s', none) => m.id :: recordedIds A applied rest s'

/-! ## In-memory model of the relational backends

The backend state keeps the `_migrations` ledger, the set of existing
tables, and a ghost journal of the backend calls that were executed (used to
state "executes its operations in list order" and "executes nothing"). -/

/-- One executed backend call, recorded in the ghost journal. -/
inductive Event where
  | createTable (name : String)
  | createIndex (name : String)
  | dropIndex (name : String)
  | dropTable (name : String)
  | insertLedger (id : String)
  | deleteLedger (id : String)
deriving Repr, DecidableEq

/-- In-memory relational backend state. -/
structure SQLState where
  migTable : Bool := false
  ledger : List String := []
  tables : List String := []
  journal : List Event := []
deriving Repr, DecidableEq

/-- The column types both relational adapters translate; any other type hits
the `default:` branch of the switch and throws. -/
def supportedColTypes : List String :=
  ["INTEGER", "NUMERIC", "BOOLEAN", "VARCHAR", "DATE", "TIMESTAMP", "TIME"]

/-- `ensureMigrationTable` of `migrationAdapterSQL.js`: create the
`_migrations` table when absent. -/
def sqlEnsure (s : SQLState) : Outcome SQLState :=
  if s.migTable then (s, none) else ({ s with migTable := true }, none)

/-- `fetchAppliedIds`: `SELECT id FROM _migrations`. -/
def sqlFetch (s : SQLState) : List String :=
  s.ledger

/-- `recordAppliedMigration`: insert the id; `id` is the ledger's primary
key, so inserting a duplicate throws. -/
def sqlRecordApplied (id : String) (s : SQLState) : Outcome SQLState :=
  if s.ledger.contains id then
    (s, some ("duplicate key in _migrations: " ++ id))
  else
    ({ s with
        ledger := s.ledger ++ [id],
        journal := s.journal ++ [Event.insertLedger id] }, none)

/-- `recordRolledBackMigration`: `DELETE FROM _migrations WHERE id = ?`. -/
def sqlRecordRolledBack (id : String) (s : SQLState) : Outcome SQLState :=
  ({ s with
      ledger := s.ledger.filter (fun i => i ≠ id),
      journal := s.journal ++ [Event.deleteLedger id] }, none)

/-- Shared body of the knex `schema.createTable` call made by
`MigrationAdapterSQL.executeOperation` and the base
`MigrationAdapter.createTable`: validate every column type against the
switch (throwing `Unsupported column type` on the first unknown one, before
any DDL runs), fail when the table already exists, and otherwise create the
table and its non-primary indexes — the primary-key index is folded into the
column clause and explicitly skipped during index emission. -/
def knexCreateTable (op : Operation) (s : SQLState) : Outcome SQLState :=
  match op.params.columns.find?
      (fun c => !(supportedColTypes.contains c.type)) with
  | some c => (s, some ("Unsupported column type: " ++ c.type))
  | none =>
    if s.tables.contains (jsNull op.params.tableName) then
      (s, some ("table already exists: " ++ jsNull op.params.tableName))
    else
      ({ s with
          tables := s.tables ++ [jsNull op.params.tableName],
          journal := s.journal ++
            [Event.createTable (jsNull op.params.tableName)] ++
            ((op.params.indexes.filter (fun i => !(truthy i.primary))).map
              (fun i => Event.createIndex i.name)) }, none)

/-- `MigrationAdapterSQL.executeOperation`: reject any operation whose
`params.type` is not `"createTable"` (the builder never assigns that
property, so a builder-made operation reads as `undefined`), then create the
table. -/
def sqlExecuteOperation (op : Operation) (s : SQLState) : Outcome SQLState :=
  if op.params.type = some "createTable" then
    knexCreateTable op s
  else
    (s, some ("Unsupported operation type: " ++ jsUndef op.params.type))

/-- The base `MigrationAdapter.applyOperation` of `migrationAdapter.js`:
same guard on `params.type`, dispatching to the knex table creation. -/
def applyOperation (op : Operation) (s : SQLState) : Outcome SQLState :=
  if op.params.type = some "createTable" then
    knexCreateTable op s
  else
    (s, some ("Unsupported operation type: " ++ jsUndef op.params.type))

/-- `MigrationAdapterSQL.revertOperation`: `DROP INDEX IF EXISTS` for every
non-primary index, then `dropTableIfExists` — both idempotent, neither
throws. -/
def sqlRevertOperation (op : Operation) (s : SQLState) : Outcome SQLState :=
  ({ s with
      tables := s.tables.filter (fun t => t ≠ jsNull op.params.tableName),
      journal := s.journal ++
        ((op.params.indexes.filter (fun i => !(truthy i.primary))).map
          (fun i => Event.dropIndex i.name)) ++
        [Event.dropTable (jsNull op.params.tableName)] }, none)

/-- The knex-backed `MigrationAdapterSQL` as an in-memory adapter. -/
def sqlAdapter : Adapter SQLState :=
  { ensureMigrationTable := sqlEnsure,
    fetchAppliedIds := sqlFetch,
    recordAppliedMigration := sqlRecordApplied,
    recordRolledBackMigration := sqlRecordRolledBack,
    executeOperation := sqlExecuteOperation,
    revertOperation := sqlRevertOperation }

/-! ### The SQLite adapter (`migrationAdapterSQLite.js`)

Its `executeOperation` interpolates `params` straight into
`CREATE TABLE IF NOT EXISTS` / `CREATE INDEX IF NOT EXISTS` SQL — there is
no `params.type` guard and no column-type switch — and its
`revertOperation` only drops the non-primary indexes: it never drops the
table. -/

/-- `MigrationAdapterSQLite.executeOperation`. -/
def sqliteExecuteOperation (op : Operation) (s : SQLState) :
    Outcome SQLState :=
  ({ s with
      tables := if s.tables.contains (jsNull op.params.tableName) then
          s.tables
        else s.tables ++ [jsNull op.params.tableName],
      journal := s.journal ++
        [Event.createTable (jsNull op.params.tableName)] ++
        ((op.params.indexes.filter (fun i => !(truthy i.primary))).map
          (fun i => Event.createIndex i.name)) }, none)

/-- `MigrationAdapterSQLite.revertOperation`: `DROP INDEX IF EXISTS` for the
non-primary indexes and nothing else — no table drop. -/
def sqliteRevertOperation (op : Operation) (s : SQLState) :
    Outcome SQLState :=
  ({ s with journal := s.journal ++
       ((op.params.indexes.filter (fun i => !(truthy i.primary))).map
         (fun i => Event.dropIndex i.name)) }, none)

/-- The libsql-backed `MigrationAdapterSQLite` as an in-memory adapter
(ledger handling is the same SQL as the knex adapter's). -/
def sqliteAdapter : Adapter SQLState :=
  { ensureMigrationTable := sqlEnsure,
    fetchAppliedIds := sqlFetch,
    recordAppliedMigration := sqlRecordApplied,
    recordRolledBackMigration := sqlRecordRolledBack,
    executeOperation := sqliteExecuteOperation,
    revertOperation := sqliteRevertOperation }

/-! ### The revert paths of the MySQL and MongoDB adapters

`MigrationAdapterMySQL.revertOperation` and
`MigrationAdapterMongoDB.revertOperation` issue one drop call per index
inside a try block whose catch clause ignores the error: the post-call
state is kept and the thrown error — whatever it was — is discarded.  The
raw backend is a parameter, so the model quantifies over every backend
behaviour, including drops that fail for reasons other than a missing
index. -/

/-- The raw `mysql2` connection as seen by `revertOperation`. -/
structure MySQLBackend (σ : Type) where
  connect : σ → Outcome σ
  execute : String → σ → Outcome σ

/-- `MigrationAdapterMySQL.revertOperation`: after `_connect`, run
`` DROP INDEX `name` ON `table` `` for every non-primary index, keeping the
post-call state and swallowing any thrown error; nothing after the loop can
throw. -/
def mysqlRevertOperation {σ : Type} (B : MySQLBackend σ) (op : Operation)
    (s : σ) : Outcome σ :=
  match B.connect s with
  | (s1, some e) => (s1, some e)
  | (s1, none) =>
    let step := fun (st : σ) (idx : Index) =>
      if truthy idx.primary then st
      else
        (B.execute ("DROP INDEX `" ++ idx.name ++ "` ON `" ++
          jsNull op.params.tableName ++ "`") st).1
    (op.params.indexes.foldl step s1, none)

/-- The raw MongoDB client as seen by `revertOperation`. -/
structure MongoBackend (σ : Type) where
  connect : σ → Outcome σ
  dropIndex : String → String → σ → Outcome σ

/-- `MigrationAdapterMongoDB.revertOperation`: after `_connect`, call
`collection(tableName).dropIndex(idx.name)` for every index (no primary
skip here), swallowing any thrown error. -/
def mongoRevertOperation {σ : Type} (B : MongoBackend σ) (op : Operation)
    (s : σ) : Outcome σ :=
  match B.connect s with
  | (s1, some e) => (s1, some e)
  | (s1, none) =>
    let step := fun (st : σ) (idx : Index) =>
      (B.dropIndex (jsNull op.params.tableName) idx.name st).1
    (op.params.indexes.foldl step s1, none)

/-! ## Derived definitions used by the statements -/

/-- The operations reachable through the public fluent builder: start from
`Operation.createTable` and chain any of its methods.  None of them ever
assigns `params.type`. -/
inductive Built : Operation → Prop where
  | createTable (name : String) : Built (Operation.createTable name)
  | addInteger (op : Operation) (name : String) (o : ColOptions) :
      Built op → Built (op.addInteger name o)
  | addNumber (op : Operation) (name : String) (o : ColOptions) :
      Built op → Built (op.addNumber name o)
  | addBoolean (op : Operation) (name : String) (o : ColOptions) :
      Built op → Built (op.addBoolean name o)
  | addDate (op : Operation) (name : String) (o : ColOptions) :
      Built op → Built (op.addDate name o)
  | addTime (op : Operation) (name : String) (o : ColOptions) :
      Built op → Built (op.addTime name o)
  | addTimestamp (op : Operation) (name : String) (o : ColOptions) :
      Built op → Built (op.addTimestamp name o)
  | addTimestamps (op : Operation) : Built op → Built op.addTimestamps
  | addVarChar (op : Operation) (name : String) (len : Nat) (o : ColOptions) :
      Built op → Built (op.addVarChar name len o)
  | addString (op : Operation) (name : String) (len : Nat) (o : ColOptions) :
      Built op → Built (op.addString name len o)
  | addPrimary (op : Operation) (name : String) :
      Built op → Built (op.addPrimary name)
  | addIndex (op : Operation) (name : String) (columns : List String)
      (opts : IndexOptions) : Built op → Built (op.addIndex name columns opts)
  | finalize (op : Operation) : Built op → Built op.finalize

/-- The backend calls `MigrationAdapterSQL.revertOperation` makes for one
operation: drop every non-primary index, then drop the table. -/
def revertEvents (op : Operation) : List Event :=
  ((op.params.indexes.filter (fun i => !(truthy i.primary))).map
    (fun i => Event.dropIndex i.name)) ++
  [Event.dropTable (jsNull op.params.tableName)]

/-- The journal a `migrateDown` run writes while reverting a list of
operations through the knex SQL adapter. -/
def revertJournal : List Operation → List Event
  | [] => []
  | op :: rest => revertEvents op ++ revertJournal rest

/-- The synthetic pk index descriptor the builder generates for a primary
column (index name `{table}_{column}_pk`, primary and unique). -/
def pkIndexOf (op : Operation) (name : String) : Index :=
  { name := op.pkIndexName name,
    columns := [Operation.normIndexCol name],
    primary := some true, unique := some true }

/-! ### Concrete fixtures -/

/-- An operation with `params.type` assigned (as the knex adapters expect);
no builder method produces such a value. -/
def typedOp (name : String) : Operation :=
  { params := { tableName := some name, type := some "createTable" } }

/-- A bare builder-made operation (its `params.type` is `undefined`). -/
def untypedOp (name : String) : Operation :=
  { params := { tableName := some name } }

/-- A migration whose second up operation fails under the knex SQL adapter
while its first one succeeds. -/
def cexMig001 : Mig :=
  { id := "001", description := "first", up := [typedOp "a", untypedOp "b"] }

/-- A later pending migration that would succeed. -/
def cexMig002 : Mig :=
  { id := "002", description := "second", up := [typedOp "c"] }

/-- The up operation of the specification's round-trip scenario:
`Operation.createTable("t").addPrimary("id").addVarChar("name",50,{required:true}).finalize()`. -/
def scenarioUpOp : Operation :=
  ((((Operation.createTable "t").addPrimary "id").addVarChar "name" 50
    { required := some true })).finalize

/-- The down operation of the scenario: `Operation.createTable("t").finalize()`. -/
def scenarioDownOp : Operation :=
  (Operation.createTable "t").finalize

/-- The scenario migration `"001"`. -/
def scenarioMig : Mig :=
  { id := "001", description := "create t",
    up := [scenarioUpOp], down := [scenarioDownOp] }

/-- An operation carrying one ordinary index, for the revert models. -/
def opWithIndex : Operation :=
  (Operation.createTable "t").addIndex "i1" ["a"] {}

/-- A MySQL connection whose every statement fails with a lock timeout —
an error that has nothing to do with a missing index.  The state logs the
statements that were attempted. -/
def failingMySQLBackend : MySQLBackend (List String) :=
  { connect := fun s => (s, none),
    execute := fun sql s =>
      (s ++ [sql], some "ER_LOCK_WAIT_TIMEOUT: Lock wait timeout exceeded") }

/-- A MongoDB client whose `dropIndex` fails with a connection error. -/
def failingMongoBackend : MongoBackend (List String) :=
  { connect := fun s => (s, none),
    dropIndex := fun _coll name s =>
      (s ++ [name], some "connection reset by peer") }

/-! ## Helper lemmas about the builder -/

theorem addIndex_columns (op : Operation) (name : String)
    (columns : List String) (opts : IndexOptions) :
    (op.addIndex name columns opts).params.columns = op.params.columns :=
  rfl

theorem addIndex_type (op : Operation) (name : String)
    (columns : List String) (opts : IndexOptions) :
    (op.addIndex name columns opts).params.type = op.params.type :=
  rfl

theorem addIndex_tableName (op : Operation) (name : String)
    (columns : List String) (opts : IndexOptions) :
    (op.addIndex name columns opts).params.tableName = op.params.tableName :=
  rfl

theorem pushColumn_columns (op : Operation) (name : String) (col : Column)
    (o : ColOptions) :
    (op.pushColumn name col o).params.columns
      = op.params.columns ++
        [if truthy o.primary then { col with required := some true }
         else col] := by
  unfold Operation.pushColumn
  split <;> simp [addIndex_columns]

theorem pushColumn_indexes (op : Operation) (name : String) (col : Column)
    (o : ColOptions) :
    (op.pushColumn name col o).params.indexes
      = (if truthy o.primary then
          op.params.indexes ++ [pkIndexOf op name]
         else op.params.indexes) := by
  unfold Operation.pushColumn
  split <;> simp [Operation.addIndex, pkIndexOf]

theorem pushColumn_type (op : Operation) (name : String) (col : Column)
    (o : ColOptions) :
    (op.pushColumn name col o).params.type = op.params.type := by
  unfold Operation.pushColumn
  split <;> rfl

/-- No builder method ever assigns `params.type`, so every operation built
through the public fluent interface reads it back as `undefined`. -/
theorem built_type_none (op : Operation) (h : Built op) :
    op.params.type = none := by
  induction h with
  | createTable name => rfl
  | addInteger op name o _ ih => simpa [Operation.addInteger, pushColumn_type] using ih
  | addNumber op name o _ ih => simpa [Operation.addNumber, pushColumn_type] using ih
  | addBoolean op name o _ ih => simpa [Operation.addBoolean, pushColumn_type] using ih
  | addDate op name o _ ih => simpa [Operation.addDate, pushColumn_type] using ih
  | addTime op name o _ ih => simpa [Operation.addTime, pushColumn_type] using ih
  | addTimestamp op name o _ ih => simpa [Operation.addTimestamp, pushColumn_type] using ih
  | addTimestamps op _ ih => simpa [Operation.addTimestamps] using ih
  | addVarChar op name len o _ ih => simpa [Operation.addVarChar, pushColumn_type] using ih
  | addString op name len o _ ih => simpa [Operation.addString, Operation.addVarChar, pushColumn_type] using ih
  | addPrimary op name _ ih => simpa [Operation.addPrimary, addIndex_type] using ih
  | addIndex op name columns opts _ ih => simpa [addIndex_type] using ih
  | finalize op _ ih => simpa [Operation.finalize] using ih

/-! ## Claim theorems -/

/-- C9: for every string list passed to `addIndex`, a token whose uppercase
form ends in " DESC" yields an index column with order "DESC", the
5-character suffix sliced off and the remainder trimmed; every other token
yields order "ASC" unchanged; in particular
`addIndex("i", ["a", "b DESC"])` yields
`[{name:"a",order:"ASC"}, {name:"b",order:"DESC"}]`. -/
theorem addIndex_token_normalization (op : Operation) (name : String)
    (columns : List String) (opts : IndexOptions) :
    (op.addIndex name columns opts).params.indexes
      = op.params.indexes ++
        [{ name := name, columns := columns.map Operation.normIndexCol,
           primary := opts.primary, unique := opts.unique,
           whereClause := opts.whereClause }]
    ∧ (∀ tok : String,
        if jsEndsWith (jsUpper tok) " DESC" then
          Operation.normIndexCol tok
            = { name := jsTrim (jsDropRight tok 5), order := "DESC" }
        else
          Operation.normIndexCol tok = { name := tok, order := "ASC" })
    ∧ ((Operation.createTable "t").addIndex "i" ["a", "b DESC"]
        {}).params.indexes
      = [{ name := "i",
           columns := [{ name := "a", order := "ASC" },
                       { name := "b", order := "DESC" }] }] := by
  refine ⟨rfl, ?_, by decide⟩
  intro tok
  unfold Operation.normIndexCol
  split <;> simp_all

/-- C8 counterexample: `finalize()` returns the very same builder object
(`return this`), so the "finalized descriptor" is the builder, and a
subsequent `addInteger` call changes the column list that descriptor
carries — it is not an immutable snapshot. -/
theorem finalize_mutable_cex :
    Operation.finalize (Operation.createTable "t") = Operation.createTable "t"
    ∧ ¬ (((Operation.createTable "t").finalize.addInteger "x" {}).params.columns
        = ((Operation.createTable "t").finalize).params.columns) :=
  ⟨rfl, by decide⟩

/-- C8 (amended): `finalize()` returns the builder itself, without copying
or freezing it; consequently any later column-adding call on the same
object changes the columns of the descriptor that was "finalized". -/
theorem finalize_returns_builder (op : Operation) (name : String)
    (o : ColOptions) :
    op.finalize = op
    ∧ (op.finalize.addInteger name o).params.columns
        ≠ op.finalize.params.columns := by
  refine ⟨rfl, fun h => ?_⟩
  have hlen := congrArg List.length h
  simp [Operation.finalize, Operation.addInteger, pushColumn_columns] at hlen

/-- C6 counterexample: `addInteger("id", {primary: true})` yields a column
with `required = true` but with no `unique` property at all — the
option-driven methods force only `required`, not `unique`. -/
theorem primary_option_not_unique_cex :
    ((Operation.createTable "t").addInteger "id"
        { primary := some true }).params.columns
      = [{ name := "id", type := "INTEGER", primary := some true,
           required := some true }]
    ∧ ¬ (∀ c ∈ ((Operation.createTable "t").addInteger "id"
          { primary := some true }).params.columns, c.unique = some true) := by
  constructor
  · decide
  · decide

/-- C6 (amended): a column created by an option-driven builder method with
the `primary` option set has `required = true` (its `unique` flag stays
whatever the options carried), and the call appends exactly one synthetic
index `{table}_{column}_pk` with `primary = true` and `unique = true`;
`addPrimary` additionally forces `unique = true` and `autoIncrement = true`
on the column and appends the same single synthetic index. -/
theorem primary_column_builder_invariants (op : Operation) (name : String)
    (len : Nat) (o : ColOptions) (hp : truthy o.primary = true) :
    ((op.addInteger name o).params.columns
        = op.params.columns ++ [{ mkCol name "INTEGER" o with required := some true }]
      ∧ (op.addInteger name o).params.indexes
        = op.params.indexes ++ [pkIndexOf op name])
    ∧ ((op.addNumber name o).params.columns
        = op.params.columns ++ [{ mkCol name "NUMERIC" o with required := some true }]
      ∧ (op.addNumber name o).params.indexes
        = op.params.indexes ++ [pkIndexOf op name])
    ∧ ((op.addBoolean name o).params.columns
        = op.params.columns ++ [{ mkCol name "BOOLEAN" o with required := some true }]
      ∧ (op.addBoolean name o).params.indexes
        = op.params.indexes ++ [pkIndexOf op name])
    ∧ ((op.addDate name o).params.columns
        = op.params.columns ++ [{ mkCol name "DATE" o with required := some true }]
      ∧ (op.addDate name o).params.indexes
        = op.params.indexes ++ [pkIndexOf op name])
    ∧ ((op.addTime name o).params.columns
        = op.params.columns ++ [{ mkCol name "TIME" o with required := some true }]
      ∧ (op.addTime name o).params.indexes
        = op.params.indexes ++ [pkIndexOf op name])
    ∧ ((op.addTimestamp name o).params.columns
        = op.params.columns ++ [{ mkCol name "TIMESTAMP" o with required := some true }]
      ∧ (op.addTimestamp name o).params.indexes
        = op.params.indexes ++ [pkIndexOf op name])
    ∧ ((op.addVarChar name len o).params.columns
        = op.params.columns ++
          [{ mkCol name "VARCHAR" o with
              length := some (o.length.getD len), required := some true }]
      ∧ (op.addVarChar name len o).params.indexes
        = op.params.indexes ++ [pkIndexOf op name])
    ∧ ((op.addPrimary name).params.columns
        = op.params.columns ++
          [{ name := name, type := "INTEGER", primary := some true,
             required := some true, unique := some true,
             autoIncrement := some true }]
      ∧ (op.addPrimary name).params.indexes
        = op.params.indexes ++ [pkIndexOf op name]) := by
  refine ⟨⟨?_, ?_⟩, ⟨?_, ?_⟩, ⟨?_, ?_⟩, ⟨?_, ?_⟩, ⟨?_, ?_⟩, ⟨?_, ?_⟩,
    ⟨?_, ?_⟩, ⟨?_, ?_⟩⟩ <;>
    simp [Operation.addInteger, Operation.addNumber, Operation.addBoolean,
      Operation.addDate, Operation.addTime, Operation.addTimestamp,
      Operation.addVarChar, Operation.addPrimary, Operation.addIndex,
      pushColumn_columns, pushColumn_indexes, pkIndexOf,
      Operation.pkIndexName, addIndex_tableName, hp, Option.getD]
  · cases o.length <;> rfl

/-- C6 witness. -/
theorem primary_column_builder_invariants_witness :
    ((Operation.createTable "t").addInteger "id"
        { primary := some true }).params.indexes
      = [pkIndexOf (Operation.createTable "t") "id"] := by
  have h := primary_column_builder_invariants (Operation.createTable "t")
    "id" 7 { primary := some true } (by decide)
  simpa using h.1.2

/-- C3: every operation produced by the fluent builder is rejected by
`MigrationAdapterSQL.executeOperation` and by the base
`MigrationAdapter.applyOperation` with an unsupported-operation-type error
(no table is created, the state is untouched), because the builder never
sets `params.type` while the adapters accept only `params.type ===
"createTable"`. -/
theorem builder_ops_rejected_by_adapter (op : Operation) (h : Built op)
    (s : SQLState) :
    sqlExecuteOperation op s
      = (s, some "Unsupported operation type: undefined")
    ∧ applyOperation op s
      = (s, some "Unsupported operation type: undefined") := by
  have ht := built_type_none op h
  constructor <;>
    simp [sqlExecuteOperation, applyOperation, ht, jsUndef]

/-- C3 witness: the scenario's fully-chained builder operation. -/
theorem builder_ops_rejected_by_adapter_witness :
    sqlExecuteOperation scenarioUpOp { migTable := true }
      = ({ migTable := true }, some "Unsupported operation type: undefined")
    ∧ applyOperation scenarioUpOp { migTable := true }
      = ({ migTable := true }, some "Unsupported operation type: undefined") :=
  builder_ops_rejected_by_adapter scenarioUpOp
    (Built.finalize _ (Built.addVarChar _ "name" 50 { required := some true }
      (Built.addPrimary _ "id" (Built.createTable "t"))))
    { migTable := true }

/-- C7 counterexample: the revert loop's catch clause swallows drop errors
indiscriminately — a lock-timeout failure on `DROP INDEX` (MySQL) and a
connection error on `dropIndex` (MongoDB) are both swallowed, and the
revert reports success, although neither error says the index no longer
exists. -/
theorem revert_swallows_foreign_error_cex :
    mysqlRevertOperation failingMySQLBackend opWithIndex []
      = (["DROP INDEX `i1` ON `t`"], none)
    ∧ mongoRevertOperation failingMongoBackend opWithIndex []
      = (["i1"], none) := by
  constructor <;> decide

/-- C7 (amended): during `revertOperation` of the MySQL and MongoDB
adapters, every error thrown by an individual index-drop call is swallowed
(in particular the nonexistent-index one, making index revert idempotent);
the only error the method can propagate is the one from establishing the
connection, which is passed through unchanged. -/
theorem revert_error_propagation {σ : Type} (B : MySQLBackend σ)
    (C : MongoBackend σ) (op : Operation) (s : σ) :
    (mysqlRevertOperation B op s).2 = (B.connect s).2
    ∧ (mongoRevertOperation C op s).2 = (C.connect s).2 := by
  constructor
  · unfold mysqlRevertOperation
    rcases h : B.connect s with ⟨s1, e⟩
    cases e <;> simp [h]
  · unfold mongoRevertOperation
    rcases h : C.connect s with ⟨s1, e⟩
    cases e <;> simp [h]

/-! ## Helper lemmas about the manager and the SQL model -/

theorem sqlEnsure_eq (s : SQLState) :
    sqlEnsure s = ({ s with migTable := true }, none) := by
  cases s with
  | mk migTable ledger tables journal =>
    cases migTable <;> simp [sqlEnsure]

/-- When every migration in the list is already applied, the loop executes
nothing and returns the state unchanged with no error. -/
theorem applyPending_all_applied {σ : Type} (A : Adapter σ)
    (applied : List String) (l : List Mig) (s : σ)
    (h : ∀ m ∈ l, applied.contains m.id = true) :
    applyPending A applied l s = (s, none) := by
  induction l with
  | nil => rfl
  | cons m rest ih =>
    have hm := h m (by simp)
    simp only [applyPending, hm, if_true]
    exact ih (fun p hp => h p (by simp [hp]))

/-- A prefix of already-applied migrations is skipped without touching the
state. -/
theorem applyPending_skip_front {σ : Type} (A : Adapter σ)
    (applied : List String) (pre l : List Mig) (s : σ)
    (h : ∀ p ∈ pre, applied.contains p.id = true) :
    applyPending A applied (pre ++ l) s = applyPending A applied l s := by
  induction pre with
  | nil => rfl
  | cons p rest ih =>
    have hp := h p (by simp)
    simp only [List.cons_append, applyPending, hp, if_true]
    exact ih (fun q hq => h q (by simp [hq]))

/-- A pending migration whose body throws makes the loop return that very
outcome: the state at the failure and the raw error. -/
theorem applyPending_head_fails {σ : Type} (A : Adapter σ)
    (applied : List String) (m : Mig) (rest : List Mig) (s sF : σ) (e : Err)
    (hm : applied.contains m.id = false)
    (hfail : applyOne A m s = (sF, some e)) :
    applyPending A applied (m :: rest) s = (sF, some e) := by
  have hcond : ¬ (applied.contains m.id = true) := by rw [hm]; decide
  unfold applyPending
  rw [if_neg hcond, hfail]

/-- C10: when every known migration id is already in the applied set, a
second `migrateUp()` executes no operation and records nothing: the only
state change is the idempotent `CREATE TABLE IF NOT EXISTS _migrations` of
`ensureMigrationTable`, so ledger, tables and journal are all unchanged and
no error is raised. -/
theorem migrateUp_idempotent (ms : List Mig) (s : SQLState)
    (hall : ∀ m ∈ ms, s.ledger.contains m.id = true) :
    (MigrationManager.make sqlAdapter ms).migrateUp s
      = ({ s with migTable := true }, none) := by
  unfold MigrationManager.migrateUp
  rw [show (MigrationManager.make sqlAdapter ms).adapter = sqlAdapter from rfl]
  rw [show sqlAdapter.ensureMigrationTable s = sqlEnsure s from rfl,
    sqlEnsure_eq s]
  exact applyPending_all_applied sqlAdapter _ _ _
    (fun m hm => hall m ((List.mem_insertionSort migLE).mp hm))

/-- C10 witness. -/
theorem migrateUp_idempotent_witness :
    (MigrationManager.make sqlAdapter [{ id := "001" }]).migrateUp
        { ledger := ["001"] }
      = ({ migTable := true, ledger := ["001"] }, none) :=
  migrateUp_idempotent [{ id := "001" }] { ledger := ["001"] } (by decide)

/-- C1 (amended): on any failure inside a pending migration's body — an up
operation or the ledger insert — `migrateUp()` aborts: later pending
migrations are not attempted (the conclusion does not depend on `rest`),
the raw adapter error propagates unchanged (it does not carry the migration
id), the failing migration's id is never recorded, and — there being no
enclosing transaction — the final state is exactly the state at the
failure point: operations already executed are not rolled back. -/
theorem migrateUp_failure_aborts {σ : Type} (mgr : MigrationManager σ)
    (s s1 sF : σ) (e : Err) (pre : List Mig) (m : Mig) (rest : List Mig)
    (hms : mgr.migrations = pre ++ m :: rest)
    (hens : mgr.adapter.ensureMigrationTable s = (s1, none))
    (hpre : ∀ p ∈ pre, (mgr.adapter.fetchAppliedIds s1).contains p.id = true)
    (hm : (mgr.adapter.fetchAppliedIds s1).contains m.id = false)
    (hfail : applyOne mgr.adapter m s1 = (sF, some e)) :
    mgr.migrateUp s = (sF, some e) := by
  unfold MigrationManager.migrateUp
  rw [hens, hms]
  show applyPending mgr.adapter (mgr.adapter.fetchAppliedIds s1)
    (pre ++ m :: rest) s1 = (sF, some e)
  rw [applyPending_skip_front mgr.adapter _ pre (m :: rest) s1 hpre]
  exact applyPending_head_fails mgr.adapter _ m rest s1 sF e hm hfail

/-- C1 witness: migration "001" whose second up operation fails under the
knex SQL adapter, with "002" still pending behind it. -/
theorem migrateUp_failure_aborts_witness :
    (MigrationManager.make sqlAdapter [cexMig001, cexMig002]).migrateUp
        { migTable := false }
      = ({ migTable := true, tables := ["a"],
           journal := [Event.createTable "a"] },
         some "Unsupported operation type: undefined") :=
  migrateUp_failure_aborts
    (MigrationManager.make sqlAdapter [cexMig001, cexMig002])
    { migTable := false } { migTable := true }
    { migTable := true, tables := ["a"], journal := [Event.createTable "a"] }
    "Unsupported operation type: undefined" [] cexMig001 [cexMig002]
    (by decide) (by decide) (by decide) (by decide) (by decide)

/-- C1 counterexample: the same run shows migration "001" is not atomic:
its first up operation's table `a` survives the failure of its second
operation (no rollback — `migrateUp` opens no transaction), the ledger
gains nothing, and the propagated error is the raw adapter message, which
does not contain the failing migration id "001". -/
theorem migrateUp_partial_state_cex :
    ((MigrationManager.make sqlAdapter [cexMig001, cexMig002]).migrateUp
        { migTable := false }).1.tables = ["a"]
    ∧ ((MigrationManager.make sqlAdapter [cexMig001, cexMig002]).migrateUp
        { migTable := false }).1.ledger = []
    ∧ ((MigrationManager.make sqlAdapter [cexMig001, cexMig002]).migrateUp
        { migTable := false }).2
      = some "Unsupported operation type: undefined"
    ∧ ¬ List.IsInfix "001".data "Unsupported operation type: undefined".data := by
  refine ⟨?_, ?_, ?_, ?_⟩ <;> decide

/-! ## Ledger accounting for the knex SQL adapter -/

theorem knexCreateTable_ledger (op : Operation) (s : SQLState) :
    (knexCreateTable op s).1.ledger = s.ledger := by
  unfold knexCreateTable
  split
  · rfl
  · split <;> rfl

theorem sqlExecuteOperation_ledger (op : Operation) (s : SQLState) :
    (sqlExecuteOperation op s).1.ledger = s.ledger := by
  unfold sqlExecuteOperation
  split
  · exact knexCreateTable_ledger op s
  · rfl

theorem runUpOps_sql_ledger (ops : List Operation) (s : SQLState) :
    (runUpOps sqlAdapter ops s).1.ledger = s.ledger := by
  induction ops generalizing s with
  | nil => rfl
  | cons op rest ih =>
    unfold runUpOps
    rcases h : sqlAdapter.executeOperation op s with ⟨s', e⟩
    have h' : sqlExecuteOperation op s = (s', e) := h
    have hx := sqlExecuteOperation_ledger op s
    rw [h'] at hx
    cases e with
    | none => exact (ih s').trans hx
    | some e => exact hx

theorem applyOne_sql_ledger_err (m : Mig) (s s' : SQLState) (e : Err)
    (h : applyOne sqlAdapter m s = (s', some e)) : s'.ledger = s.ledger := by
  unfold applyOne at h
  rcases hr : runUpOps sqlAdapter m.up s with ⟨s1, e1⟩
  have h1 : s1.ledger = s.ledger := by
    have hx := runUpOps_sql_ledger m.up s
    rw [hr] at hx
    exact hx
  rw [hr] at h
  cases e1 with
  | none =>
    have h2 : sqlRecordApplied m.id s1 = (s', some e) := h
    unfold sqlRecordApplied at h2
    by_cases hc : s1.ledger.contains m.id = true
    · rw [if_pos hc] at h2
      cases h2
      exact h1
    · rw [if_neg hc] at h2
      cases h2
  | some e1 =>
    have h2 : ((s1, some e1) : Outcome SQLState) = (s', some e) := h
    cases h2
    exact h1

theorem applyOne_sql_ledger_ok (m : Mig) (s s' : SQLState)
    (h : applyOne sqlAdapter m s = (s', none)) :
    s'.ledger = s.ledger ++ [m.id] := by
  unfold applyOne at h
  rcases hr : runUpOps sqlAdapter m.up s with ⟨s1, e1⟩
  have h1 : s1.ledger = s.ledger := by
    have hx := runUpOps_sql_ledger m.up s
    rw [hr] at hx
    exact hx
  rw [hr] at h
  cases e1 with
  | none =>
    have h2 : sqlRecordApplied m.id s1 = (s', none) := h
    unfold sqlRecordApplied at h2
    by_cases hc : s1.ledger.contains m.id = true
    · rw [if_pos hc] at h2
      cases h2
    · rw [if_neg hc] at h2
      cases h2
      simp [h1]
  | some e1 =>
    have h2 : ((s1, some e1) : Outcome SQLState) = (s', none) := h
    simp at h2

/-! Head-case unfolding lemmas for the loop and its recorded-ids mirror. -/

theorem applyPending_skip {σ : Type} (A : Adapter σ) (applied : List String)
    (m : Mig) (rest : List Mig) (s : σ)
    (h : applied.contains m.id = true) :
    applyPending A applied (m :: rest) s = applyPending A applied rest s := by
  conv_lhs => unfold applyPending
  rw [if_pos h]

theorem applyPending_ok {σ : Type} (A : Adapter σ) (applied : List String)
    (m : Mig) (rest : List Mig) (s s' : σ)
    (h : applied.contains m.id = false)
    (ha : applyOne A m s = (s', none)) :
    applyPending A applied (m :: rest) s = applyPending A applied rest s' := by
  have hcond : ¬ (applied.contains m.id = true) := by rw [h]; decide
  conv_lhs => unfold applyPending
  rw [if_neg hcond, ha]

theorem recordedIds_skip {σ : Type} (A : Adapter σ) (applied : List String)
    (m : Mig) (rest : List Mig) (s : σ)
    (h : applied.contains m.id = true) :
    recordedIds A applied (m :: rest) s = recordedIds A applied rest s := by
  conv_lhs => unfold recordedIds
  rw [if_pos h]

theorem recordedIds_fail {σ : Type} (A : Adapter σ) (applied : List String)
    (m : Mig) (rest : List Mig) (s s' : σ) (e : Err)
    (h : applied.contains m.id = false)
    (ha : applyOne A m s = (s', some e)) :
    recordedIds A applied (m :: rest) s = [] := by
  have hcond : ¬ (applied.contains m.id = true) := by rw [h]; decide
  conv_lhs => unfold recordedIds
  rw [if_neg hcond, ha]

theorem recordedIds_ok {σ : Type} (A : Adapter σ) (applied : List String)
    (m : Mig) (rest : List Mig) (s s' : σ)
    (h : applied.contains m.id = false)
    (ha : applyOne A m s = (s', none)) :
    recordedIds A applied (m :: rest) s
      = m.id :: recordedIds A applied rest s' := by
  have hcond : ¬ (applied.contains m.id = true) := by rw [h]; decide
  conv_lhs => unfold recordedIds
  rw [if_neg hcond, ha]

/-- The ledger after the `migrateUp` loop is exactly the initial ledger
followed by the ids recorded during the run. -/
theorem applyPending_sql_ledger (applied : List String) (ms : List Mig)
    (s : SQLState) :
    (applyPending sqlAdapter applied ms s).1.ledger
      = s.ledger ++ recordedIds sqlAdapter applied ms s := by
  induction ms generalizing s with
  | nil => simp [applyPending, recordedIds]
  | cons m rest ih =>
    by_cases hc : applied.contains m.id = true
    · rw [applyPending_skip sqlAdapter applied m rest s hc,
        recordedIds_skip sqlAdapter applied m rest s hc]
      exact ih s
    · have hc' : applied.contains m.id = false := by
        rwa [Bool.not_eq_true] at hc
      rcases ha : applyOne sqlAdapter m s with ⟨s', e1⟩
      cases e1 with
      | some e =>
        rw [applyPending_head_fails sqlAdapter applied m rest s s' e hc' ha,
          recordedIds_fail sqlAdapter applied m rest s s' e hc' ha]
        simp [applyOne_sql_ledger_err m s s' e ha]
      | none =>
        rw [applyPending_ok sqlAdapter applied m rest s s' hc' ha,
          recordedIds_ok sqlAdapter applied m rest s s' hc' ha]
        rw [ih s', applyOne_sql_ledger_ok m s s' ha]
        simp

/-- The recorded ids are a sublist of the iterated migrations' ids, hence
in iteration order. -/
theorem recordedIds_sublist {σ : Type} (A : Adapter σ)
    (applied : List String) (ms : List Mig) (s : σ) :
    List.Sublist (recordedIds A applied ms s) (ms.map Mig.id) := by
  induction ms generalizing s with
  | nil => simp [recordedIds]
  | cons m rest ih =>
    by_cases hc : applied.contains m.id = true
    · rw [recordedIds_skip A applied m rest s hc]
      exact (ih s).cons m.id
    · have hc' : applied.contains m.id = false := by
        rwa [Bool.not_eq_true] at hc
      rcases ha : applyOne A m s with ⟨s', e1⟩
      cases e1 with
      | some e =>
        rw [recordedIds_fail A applied m rest s s' e hc' ha]
        exact List.nil_sublist _
      | none =>
        rw [recordedIds_ok A applied m rest s s' hc' ha]
        exact (ih s').cons₂ m.id

/-- C2: the manager constructor sorts the migration list into non-decreasing
lexical id order (so `migrateUp` iterates, and thus applies the pending
migrations, in that order); the ids recorded by the run are themselves in
non-decreasing lexical order; and afterwards `getAppliedMigrations()` is
exactly the union of the previously applied id set with the ids of the
migrations processed without error (`recordedIds`, the mirror of the run
that collects the id of every pending migration whose up operations and
ledger insert all succeeded before the first failure). -/
theorem migrateUp_order_and_applied_set (ms : List Mig) (s : SQLState) :
    List.Sorted migLE (MigrationManager.make sqlAdapter ms).migrations
    ∧ List.Sorted strLE
        (recordedIds sqlAdapter s.ledger
          (MigrationManager.make sqlAdapter ms).migrations
          { s with migTable := true })
    ∧ (∀ i : String,
        i ∈ (MigrationManager.make sqlAdapter ms).getAppliedMigrations
              ((MigrationManager.make sqlAdapter ms).migrateUp s).1
          ↔ i ∈ s.ledger ∨
            i ∈ recordedIds sqlAdapter s.ledger
              (MigrationManager.make sqlAdapter ms).migrations
              { s with migTable := true }) := by
  have hsorted : List.Sorted migLE (List.insertionSort migLE ms) :=
    List.sorted_insertionSort migLE ms
  refine ⟨hsorted, ?_, ?_⟩
  · have hsub := recordedIds_sublist sqlAdapter s.ledger
      (List.insertionSort migLE ms) ({ s with migTable := true })
    have hmap : List.Pairwise (fun a b : String => strLE a b)
        ((List.insertionSort migLE ms).map Mig.id) := by
      rw [List.pairwise_map]
      exact hsorted
    exact List.Pairwise.sublist hsub hmap
  · intro i
    have hrun : ((MigrationManager.make sqlAdapter ms).migrateUp s).1.ledger
        = s.ledger ++ recordedIds sqlAdapter s.ledger
            (List.insertionSort migLE ms) { s with migTable := true } := by
      unfold MigrationManager.migrateUp
      rw [show (MigrationManager.make sqlAdapter ms).adapter = sqlAdapter
        from rfl]
      rw [show sqlAdapter.ensureMigrationTable s = sqlEnsure s from rfl,
        sqlEnsure_eq s]
      exact applyPending_sql_ledger s.ledger _ _
    rw [show (MigrationManager.make sqlAdapter ms).getAppliedMigrations
        ((MigrationManager.make sqlAdapter ms).migrateUp s).1
      = ((MigrationManager.make sqlAdapter ms).migrateUp s).1.ledger
      from rfl, hrun]
    exact List.mem_append

/-! ## Rollback accounting for the knex SQL adapter -/

theorem charsLe_refl : ∀ as : List Char, charsLe as as = true
  | [] => rfl
  | a :: as => by simp [charsLe, charsLe_refl as]

theorem strLE_refl (s : String) : strLE s s :=
  charsLe_refl s.data

/-- In a list sorted by id, the last element has the greatest id. -/
theorem sorted_getLast_max (l : List Mig) :
    List.Sorted migLE l → ∀ x, l.getLast? = some x →
      ∀ y ∈ l, strLE y.id x.id := by
  induction l with
  | nil =>
    intro _ x hx
    cases hx
  | cons a l' ih =>
    intro hs x hx y hy
    cases l' with
    | nil =>
      simp only [List.getLast?_singleton, Option.some.injEq] at hx
      subst hx
      simp only [List.mem_singleton] at hy
      subst hy
      exact strLE_refl y.id
    | cons b l'' =>
      rw [List.getLast?_cons_cons] at hx
      have hmem : x ∈ b :: l'' := List.mem_of_getLast?_eq_some hx
      rcases List.mem_cons.mp hy with rfl | hy'
      · exact (List.sorted_cons.mp hs).1 x hmem
      · exact ih (List.sorted_cons.mp hs).2 x hx y hy'

theorem sqlRevertOperation_spec (op : Operation) (s : SQLState) :
    (sqlRevertOperation op s).2 = none
    ∧ (sqlRevertOperation op s).1.ledger = s.ledger
    ∧ (sqlRevertOperation op s).1.journal = s.journal ++ revertEvents op := by
  refine ⟨rfl, rfl, ?_⟩
  simp [sqlRevertOperation, revertEvents, List.append_assoc]

theorem runDownOps_sql_spec (ops : List Operation) (s : SQLState) :
    (runDownOps sqlAdapter ops s).2 = none
    ∧ (runDownOps sqlAdapter ops s).1.ledger = s.ledger
    ∧ (runDownOps sqlAdapter ops s).1.journal
        = s.journal ++ revertJournal ops := by
  induction ops generalizing s with
  | nil => simp [runDownOps, revertJournal]
  | cons op rest ih =>
    unfold runDownOps
    rcases h : sqlAdapter.revertOperation op s with ⟨s2, e2⟩
    have h' : sqlRevertOperation op s = (s2, e2) := h
    have hspec := sqlRevertOperation_spec op s
    rw [h'] at hspec
    obtain ⟨he, hl, hj⟩ := hspec
    cases e2 with
    | some e => simp at he
    | none =>
      obtain ⟨ihe, ihl, ihj⟩ := ih s2
      refine ⟨ihe, ihl.trans hl, ?_⟩
      rw [ihj, hj, List.append_assoc]
      rfl

/-- The migrations `migrateDown` selects from: the known (sorted) list
filtered down to the ids present in the fetched applied set. -/
def dmList (ms : List Mig) (s : SQLState) : List Mig :=
  (List.insertionSort migLE ms).filter (fun m => s.ledger.contains m.id)

/-- `migrateDown` through the SQL model factors through `rollbackLast` on
the filtered applied list. -/
theorem migrateDown_sql_eq (ms : List Mig) (s : SQLState) :
    (MigrationManager.make sqlAdapter ms).migrateDown s
      = rollbackLast sqlAdapter ((dmList ms s).getLast?)
          { s with migTable := true } := by
  unfold MigrationManager.migrateDown
  rw [show (MigrationManager.make sqlAdapter ms).adapter = sqlAdapter
    from rfl]
  rw [show sqlAdapter.ensureMigrationTable s = sqlEnsure s from rfl,
    sqlEnsure_eq s]
  rfl

/-- C4: `migrateDown()` selects, among the known migrations whose id is in
the fetched applied set, the one with the lexically greatest id, executes
its down operations in list order (the journal grows by exactly their
revert calls), then deletes that id's ledger rows; when no known migration
is applied it performs no operation and makes no ledger change (only the
idempotent `ensureMigrationTable` flag is touched). -/
theorem migrateDown_rolls_back_greatest (ms : List Mig) (s : SQLState) :
    match (dmList ms s).getLast? with
    | none =>
        (MigrationManager.make sqlAdapter ms).migrateDown s
          = ({ s with migTable := true }, none)
    | some last =>
        last ∈ dmList ms s
        ∧ (∀ m ∈ dmList ms s, strLE m.id last.id)
        ∧ ((MigrationManager.make sqlAdapter ms).migrateDown s).2 = none
        ∧ ((MigrationManager.make sqlAdapter ms).migrateDown s).1.ledger
            = s.ledger.filter (fun i => i ≠ last.id)
        ∧ ((MigrationManager.make sqlAdapter ms).migrateDown s).1.journal
            = s.journal ++ revertJournal last.down
              ++ [Event.deleteLedger last.id] := by
  have hsor : List.Sorted migLE (dmList ms s) :=
    List.Pairwise.sublist (List.filter_sublist _)
      (List.sorted_insertionSort migLE ms)
  rcases hlast : (dmList ms s).getLast? with _ | last
  · rw [migrateDown_sql_eq ms s, hlast]
    rfl
  · rcases hr : runDownOps sqlAdapter last.down { s with migTable := true }
      with ⟨s2, e2⟩
    have hspec := runDownOps_sql_spec last.down { s with migTable := true }
    rw [hr] at hspec
    obtain ⟨he, hl, hj⟩ := hspec
    cases e2 with
    | some e => simp at he
    | none =>
      have hrb : rollbackLast sqlAdapter (some last) { s with migTable := true }
          = sqlRecordRolledBack last.id s2 := by
        simp only [rollbackLast]
        rw [hr]
        rfl
      have hrun3 : (MigrationManager.make sqlAdapter ms).migrateDown s
          = sqlRecordRolledBack last.id s2 := by
        rw [migrateDown_sql_eq ms s, hlast, hrb]
      have hl' : s2.ledger = s.ledger := hl
      have hj' : s2.journal = s.journal ++ revertJournal last.down := hj
      refine ⟨List.mem_of_getLast?_eq_some hlast,
        sorted_getLast_max (dmList ms s) hsor last hlast, ?_, ?_, ?_⟩
      · rw [hrun3]
        rfl
      · rw [hrun3]
        show s2.ledger.filter (fun i => i ≠ last.id)
          = s.ledger.filter (fun i => i ≠ last.id)
        rw [hl']
      · rw [hrun3]
        show s2.journal ++ [Event.deleteLedger last.id]
          = s.journal ++ revertJournal last.down ++ [Event.deleteLedger last.id]
        rw [hj']

/-- C5 (evaluation at the failing input): the specification's round-trip
scenario does not hold on the code.  With the knex SQL adapter,
`migrateUp()` throws `Unsupported operation type: undefined` on the
scenario's first builder-made operation — no table is created and the
ledger never gains "001", so there is nothing for `migrateDown()` to roll
back.  With the SQLite adapter (whose `executeOperation` has no type
check), the ledger does round-trip — but `migrateDown()` never drops table
`t`: `MigrationAdapterSQLite.revertOperation` only drops indexes. -/
theorem scenario_roundtrip_code_bug :
    (MigrationManager.make sqlAdapter [scenarioMig]).migrateUp
        ({} : SQLState)
      = ({ migTable := true }, some "Unsupported operation type: undefined")
    ∧ ((MigrationManager.make sqliteAdapter [scenarioMig]).migrateUp
        ({} : SQLState)).2 = none
    ∧ ((MigrationManager.make sqliteAdapter [scenarioMig]).migrateUp
        ({} : SQLState)).1.ledger = ["001"]
    ∧ ((MigrationManager.make sqliteAdapter [scenarioMig]).migrateUp
        ({} : SQLState)).1.tables = ["t"]
    ∧ ((MigrationManager.make sqliteAdapter [scenarioMig]).migrateDown
        ((MigrationManager.make sqliteAdapter [scenarioMig]).migrateUp
          ({} : SQLState)).1).2 = none
    ∧ ((MigrationManager.make sqliteAdapter [scenarioMig]).migrateDown
        ((MigrationManager.make sqliteAdapter [scenarioMig]).migrateUp
          ({} : SQLState)).1).1.ledger = []
    ∧ ((MigrationManager.make sqliteAdapter [scenarioMig]).migrateDown
        ((MigrationManager.make sqliteAdapter [scenarioMig]).migrateUp
          ({} : SQLState)).1).1.tables = ["t"] := by
  refine ⟨?_, ?_, ?_, ?_, ?_, ?_, ?_⟩ <;> decide

end Sandy
